import Mathlib

/-!
Verification development for the secret factory/offspring contract pair.

The factory contract (src/factory/src) spawns offspring contracts, runs a
one-time-password registration handshake, keeps global and per-owner
active/inactive indices, and exposes viewing-key-authenticated queries.
The offspring contract (src/offspring/src) holds a local active flag and a
toy counter.

Machine integers are modelled as `Nat`/`Int`; byte strings as `List Nat`;
addresses (`HumanAddr`/`Addr`) as `String`.  The insertion-ordered key-value
substrate (secret-toolkit `Keymap`/`Item`), the viewing-key store and the
hash/PRNG primitives are external dependencies whose code is not part of the
repository sources; they are modelled from the spec where noted.
-/

set_option autoImplicit false
set_option maxRecDepth 10000

namespace Factory

/-- Addresses are modelled as strings. -/
abbrev HumanAddr := String

/-- Bytes are modelled as naturals (each intended `< 256`). -/
abbrev Bytes := List Nat

/-- Info needed to instantiate an offspring (src/factory/src/structs.rs `CodeInfo`). -/
structure CodeInfo where
  code_id : Nat
  code_hash : String
deriving Repr, DecidableEq

/-- Code hash and address of a contract (src/factory/src/structs.rs `ContractInfo`). -/
structure ContractInfo where
  code_hash : String
  address : HumanAddr
deriving Repr, DecidableEq

/-- Offspring info for storage/display (src/factory/src/structs.rs `StoreOffspringInfo`). -/
structure StoreOffspringInfo where
  contract : ContractInfo
  label : String
deriving Repr, DecidableEq

/-- Registration payload the factory expects (src/factory/src/msg.rs `RegisterOffspringInfo`). -/
structure RegisterOffspringInfo where
  label : String
  password : Bytes
deriving Repr, DecidableEq

/-- src/factory/src/structs.rs `CodeInfo::to_contract_info`. -/
def CodeInfo.to_contract_info (c : CodeInfo) (contract_addr : HumanAddr) : ContractInfo :=
  { code_hash := c.code_hash, address := contract_addr }

/-- src/factory/src/msg.rs `RegisterOffspringInfo::to_store_offspring_info`. -/
def RegisterOffspringInfo.to_store_offspring_info (r : RegisterOffspringInfo)
    (contract : ContractInfo) : StoreOffspringInfo :=
  { contract := contract, label := r.label }

/-! ### Insertion-ordered key-value substrate

Modelled from the spec: the secret-toolkit `Keymap` used by
src/factory/src/state.rs is an external dependency (spec section 1 assumes a
"durable, insertion-ordered storage" substrate; section 4.2 fixes its
contract: insertion-order enumeration, `insert`, `remove`, `contains`).
A keymap is an association list enumerated in insertion order; inserting an
existing key updates its value in place, inserting a fresh key appends. -/

/-- Look a key up in an association list. -/
def kmGet {V : Type} : List (HumanAddr × V) → HumanAddr → Option V
  | [], _ => none
  | (k', v') :: rest, k => if k' = k then some v' else kmGet rest k

/-- Insert into an association list: update in place, or append a fresh key. -/
def kmInsert {V : Type} : List (HumanAddr × V) → HumanAddr → V → List (HumanAddr × V)
  | [], k, v => [(k, v)]
  | (k', v') :: rest, k, v =>
    if k' = k then (k, v) :: rest else (k', v') :: kmInsert rest k v

/-- Remove a key from an association list, keeping the order of the rest. -/
def kmRemove {V : Type} : List (HumanAddr × V) → HumanAddr → List (HumanAddr × V)
  | [], _ => []
  | (k', v') :: rest, k =>
    if k' = k then kmRemove rest k else (k', v') :: kmRemove rest k

/-- Membership in a boolean index keymap, mirroring the code's
`keymap.get(storage, key).unwrap_or(false)`: the stored flag, or `false`
when the key is absent.  The factory only ever inserts `true`, so this
coincides with key presence on every reachable state. -/
def memK (m : List (HumanAddr × Bool)) (k : HumanAddr) : Bool :=
  (kmGet m k).getD false

/-- A family of keymaps indexed by an owner suffix (`Keymap::add_suffix`):
an absent owner scope is the empty keymap. -/
def scopeGet (m : List (HumanAddr × List (HumanAddr × Bool))) (o : HumanAddr) :
    List (HumanAddr × Bool) :=
  (kmGet m o).getD []

/-- Insert into one owner's scoped keymap. -/
def scopeInsert (m : List (HumanAddr × List (HumanAddr × Bool))) (o : HumanAddr)
    (k : HumanAddr) (v : Bool) : List (HumanAddr × List (HumanAddr × Bool)) :=
  kmInsert m o (kmInsert (scopeGet m o) k v)

/-- Remove from one owner's scoped keymap. -/
def scopeRemove (m : List (HumanAddr × List (HumanAddr × Bool))) (o : HumanAddr)
    (k : HumanAddr) : List (HumanAddr × List (HumanAddr × Bool)) :=
  kmInsert m o (kmRemove (scopeGet m o) k)

/-! ### Entropy / password generator

Modelled from the spec: src/factory/src/rand.rs (`sha_256`, `Prng`) is not
among the provided sources.  Spec section 4.1 specifies a deterministic
generator producing a fixed-width 32-byte token from a stored seed plus
caller-supplied entropy and block context.  The mixing function below is a
deterministic computable stand-in; no verified claim depends on its output
values, only on determinism and on the password being stored and carried
verbatim. -/

/-- Modelled from the spec: deterministic 32-byte digest standing in for
src/factory/src/rand.rs `sha_256` (file absent from the sources). -/
def sha_256 (input : Bytes) : Bytes :=
  let h := input.foldl (fun a b => (a * 131 + b + 7) % 65536) 17
  (List.range 32).map (fun i => (h * (i + 3) + i) % 256)

/-- Bytes of a string (UTF-8 is collapsed to codepoint mod 256; only
determinism matters for the verified claims). -/
def strBytes (s : String) : Bytes :=
  s.toList.map (fun c => c.toNat % 256)

/-- Big-endian 8-byte encoding of a nat (`u64::to_be_bytes`). -/
def natBytes8 (n : Nat) : Bytes :=
  (List.range 8).map (fun i => n / 256 ^ (7 - i) % 256)

/-- Transaction environment (cosmwasm `Env`: message sender, block data,
this contract's address and code hash). -/
structure Env where
  sender : HumanAddr
  block_height : Nat
  block_time : Nat
  contract_address : HumanAddr
  contract_code_hash : String
deriving Repr, DecidableEq

/-- src/factory/src/contract.rs `new_entropy`: block height, block time,
sender and caller entropy are concatenated and fed with the stored seed to
the generator (`Prng::new(seed, entropy).rand_bytes()`, modelled from the
spec as a digest of seed and entropy). -/
def new_entropy (env : Env) (seed : Bytes) (entropy : Bytes) : Bytes :=
  let rng_entropy :=
    natBytes8 env.block_height ++ natBytes8 env.block_time
      ++ strBytes env.sender ++ entropy
  sha_256 (seed ++ rng_entropy)

/-- the default number of offspring listed during queries
(src/factory/src/state.rs `DEFAULT_PAGE_SIZE`). -/
def DEFAULT_PAGE_SIZE : Nat := 200

/-- The factory's durable state: the `Item`s and `Keymap`s of
src/factory/src/state.rs, plus the viewing-key store the contract exposes. -/
structure FactoryState where
  prng_seed : Bytes
  admin : HumanAddr
  is_stopped : Bool
  offspring_code : CodeInfo
  pending_password : Option Bytes
  offspring_storage : List (HumanAddr × StoreOffspringInfo)
  active_store : List (HumanAddr × Bool)
  inactive_store : List (HumanAddr × Bool)
  owners_active : List (HumanAddr × List (HumanAddr × Bool))
  owners_inactive : List (HumanAddr × List (HumanAddr × Bool))
  viewing_keys : List (HumanAddr × String)
deriving Repr, DecidableEq

/-- Errors raised by the factory handlers and queries, one constructor per
`StdError::generic_err` site in src/factory/src/contract.rs. -/
inductive FactoryErr where
  /-- "The factory has been stopped. No new offspring can be created" -/
  | factoryStopped
  /-- "Unable to authenticate registration." (no pending password) -/
  | authFailed
  /-- "password does not match the offspring we are creating" -/
  | passwordMismatch
  /-- "This offspring is already not active" -/
  | alreadyInactive
  /-- "This is an admin command. ..." -/
  | adminOnly
  /-- "Please select one of active or inactive offspring to list." -/
  | badFilter
  /-- "Error occurred while loading offspring data" -/
  | offspringDataMissing
deriving Repr, DecidableEq

/-- Instantiation message (src/factory/src/msg.rs `InitMsg`). -/
structure InitMsg where
  entropy : String
  offspring_code_info : CodeInfo
deriving Repr, DecidableEq

/-- src/factory/src/contract.rs `init`: seed the prng from the entropy,
record the admin, start unstopped.  (The `base64::encode` pre-step is an
external dependency, modelled as the identity on the entropy bytes.) -/
def init (env : Env) (msg : InitMsg) : FactoryState :=
  { prng_seed := sha_256 (strBytes msg.entropy)
    admin := env.sender
    is_stopped := false
    offspring_code := msg.offspring_code_info
    pending_password := none
    offspring_storage := []
    active_store := []
    inactive_store := []
    owners_active := []
    owners_inactive := []
    viewing_keys := [] }

/-- The instantiate message the factory sends to a new offspring
(src/factory/src/contract.rs `try_create_offspring`, `OffspringInitMsg`). -/
structure OffspringInitMsg where
  factory : ContractInfo
  label : String
  password : Bytes
  owner : HumanAddr
  count : Int
  description : Option String
deriving Repr, DecidableEq

/-- src/factory/src/contract.rs `try_create_offspring`: refuse when stopped;
otherwise advance the prng seed, mint and store the pending password, and
return the spawn instruction carrying that password. -/
def try_create_offspring (s : FactoryState) (env : Env) (label : String)
    (entropy : String) (owner : HumanAddr) (count : Int)
    (description : Option String) : Except FactoryErr (FactoryState × OffspringInitMsg) :=
  if s.is_stopped then
    .error .factoryStopped
  else
    let factory : ContractInfo :=
      { code_hash := env.contract_code_hash, address := env.contract_address }
    let new_prng_bytes := new_entropy env s.prng_seed (strBytes entropy)
    let password := sha_256 new_prng_bytes
    let s1 := { s with prng_seed := new_prng_bytes, pending_password := some password }
    let initmsg : OffspringInitMsg :=
      { factory := factory, label := label, password := password
        owner := owner, count := count, description := description }
    .ok (s1, initmsg)

/-- src/factory/src/contract.rs `try_register_offspring`: authenticate the
presented password against the pending slot; on match clear the slot, store
the offspring record keyed by the sender address, and insert the sender into
the global and owner-scoped active indices.  The returned address is the
`offspring_address` log attribute. -/
def try_register_offspring (s : FactoryState) (env : Env) (owner : HumanAddr)
    (reg_offspring : RegisterOffspringInfo) :
    Except FactoryErr (FactoryState × HumanAddr) :=
  match s.pending_password with
  | none => .error .authFailed
  | some auth_password =>
    if auth_password ≠ reg_offspring.password then
      .error .passwordMismatch
    else
      let s1 := { s with pending_password := none }
      let offspring_info := s1.offspring_code.to_contract_info env.sender
      let offspring := reg_offspring.to_store_offspring_info offspring_info
      let s2 := { s1 with
        offspring_storage := kmInsert s1.offspring_storage offspring_info.address offspring }
      let s3 := { s2 with
        active_store := kmInsert s2.active_store offspring_info.address true }
      let s4 := { s3 with
        owners_active := scopeInsert s3.owners_active owner offspring_info.address true }
      .ok (s4, env.sender)

/-- src/factory/src/contract.rs `try_deactivate_offspring`: the sender (the
offspring contract) must be in the global active index; it is moved to the
global inactive index, and moved between the scoped indices of the
caller-supplied `owner`. -/
def try_deactivate_offspring (s : FactoryState) (env : Env) (owner : HumanAddr) :
    Except FactoryErr FactoryState :=
  let offspring_addr := env.sender
  let is_active := memK s.active_store offspring_addr
  if !is_active then
    .error .alreadyInactive
  else
    let s1 := { s with active_store := kmRemove s.active_store offspring_addr }
    let s2 := { s1 with inactive_store := kmInsert s1.inactive_store offspring_addr true }
    let s3 := { s2 with owners_active := scopeRemove s2.owners_active owner offspring_addr }
    let s4 := { s3 with
      owners_inactive := scopeInsert s3.owners_inactive owner offspring_addr true }
    .ok s4

/-- src/factory/src/contract.rs `try_new_contract`: admin-only update of the
offspring code info. -/
def try_new_contract (s : FactoryState) (env : Env) (offspring_code_info : CodeInfo) :
    Except FactoryErr FactoryState :=
  if s.admin ≠ env.sender then .error .adminOnly
  else .ok { s with offspring_code := offspring_code_info }

/-- src/factory/src/contract.rs `try_set_status`: admin-only update of the
stopped flag. -/
def try_set_status (s : FactoryState) (env : Env) (stop : Bool) :
    Except FactoryErr FactoryState :=
  if s.admin ≠ env.sender then .error .adminOnly
  else .ok { s with is_stopped := stop }

/-- Modelled from the spec: `ViewingKey::create` of the external
secret-toolkit viewing-key store (spec section 4.3: mint a key from the
store seed and caller entropy, persist it, overwriting any prior key for the
identity).  The key is stored verbatim and compared exactly on `check`. -/
def viewing_key_mint (s : FactoryState) (env : Env) (entropy : String) : String :=
  String.join ((sha_256 (s.prng_seed ++ strBytes env.sender ++ strBytes entropy
    ++ natBytes8 env.block_height)).map (fun b => toString b))

/-- src/factory/src/contract.rs `try_create_key`: mint a key for the sender
(via the spec-modelled store) and return it. -/
def try_create_key (s : FactoryState) (env : Env) (entropy : String) :
    FactoryState × String :=
  let key := viewing_key_mint s env entropy
  ({ s with viewing_keys := kmInsert s.viewing_keys env.sender key }, key)

/-- src/factory/src/contract.rs `try_set_key`: install the caller-chosen key
for the sender. -/
def try_set_key (s : FactoryState) (env : Env) (key : String) : FactoryState :=
  { s with viewing_keys := kmInsert s.viewing_keys env.sender key }

/-- src/factory/src/contract.rs `is_key_valid` delegating to the
spec-modelled `ViewingKey::check`: true exactly when a key is stored for the
address and equals the presented one (an identity with no stored key always
fails). -/
def is_key_valid (s : FactoryState) (address : HumanAddr) (viewing_key : String) : Bool :=
  match kmGet s.viewing_keys address with
  | none => false
  | some stored => stored = viewing_key

/-- The filter types when viewing an address' offspring
(src/factory/src/msg.rs `FilterTypes`). -/
inductive FilterTypes where
  | Active
  | Inactive
  | All
deriving Repr, DecidableEq

/-- Responses to queries (src/factory/src/msg.rs `QueryAnswer`). -/
inductive QueryAnswer where
  | ListMyOffspring (active : Option (List StoreOffspringInfo))
      (inactive : Option (List StoreOffspringInfo))
  | ListActiveOffspring (active : List StoreOffspringInfo)
  | ListInactiveOffspring (inactive : List StoreOffspringInfo)
  | ViewingKeyError (error : String)
  | IsKeyValid (is_valid : Bool)
deriving Repr, DecidableEq

/-- The record-resolution loop of
src/factory/src/contract.rs `display_active_or_inactive_list`: each paged key
is looked up in `OFFSPRING_STORAGE`; a missing record is the
"Error occurred while loading offspring data" error. -/
def resolveKeys (s : FactoryState) : List HumanAddr →
    Except FactoryErr (List StoreOffspringInfo)
  | [] => .ok []
  | contract_addr :: rest =>
    match kmGet s.offspring_storage contract_addr with
    | none => .error .offspringDataMissing
    | some offspring_info =>
      match resolveKeys s rest with
      | .error e => .error e
      | .ok list => .ok (offspring_info :: list)

/-- src/factory/src/contract.rs `display_active_or_inactive_list`: select the
global or owner-scoped index by the filter (the `All` filter is an error),
page its keys by `skip (start_page * size) |>.take size` with defaults
`start_page = 0`, `size = DEFAULT_PAGE_SIZE`, and resolve each key to its
stored record. -/
def display_active_or_inactive_list (s : FactoryState) (owner : Option HumanAddr)
    (filter : FilterTypes) (start_page : Option Nat) (page_size : Option Nat) :
    Except FactoryErr (List StoreOffspringInfo) :=
  let start := start_page.getD 0
  let size := page_size.getD DEFAULT_PAGE_SIZE
  let keymapE : Except FactoryErr (List (HumanAddr × Bool)) :=
    match filter with
    | .Active =>
      match owner with
      | some owner_addr => .ok (scopeGet s.owners_active owner_addr)
      | none => .ok s.active_store
    | .Inactive =>
      match owner with
      | some owner_addr => .ok (scopeGet s.owners_inactive owner_addr)
      | none => .ok s.inactive_store
    | .All => .error .badFilter
  match keymapE with
  | .error e => .error e
  | .ok keymap =>
    resolveKeys s (((keymap.map Prod.fst).drop (start * size)).take size)

/-- src/factory/src/contract.rs `try_list_active`. -/
def try_list_active (s : FactoryState) (start_page : Option Nat)
    (page_size : Option Nat) : Except FactoryErr QueryAnswer :=
  match display_active_or_inactive_list s none .Active start_page page_size with
  | .error e => .error e
  | .ok list => .ok (.ListActiveOffspring list)

/-- src/factory/src/contract.rs `try_list_inactive`. -/
def try_list_inactive (s : FactoryState) (start_page : Option Nat)
    (page_size : Option Nat) : Except FactoryErr QueryAnswer :=
  match display_active_or_inactive_list s none .Inactive start_page page_size with
  | .error e => .error e
  | .ok list => .ok (.ListInactiveOffspring list)

/-- src/factory/src/contract.rs `try_validate_key`. -/
def try_validate_key (s : FactoryState) (address : HumanAddr) (viewing_key : String) :
    Except FactoryErr QueryAnswer :=
  .ok (.IsKeyValid (is_key_valid s address viewing_key))

/-- src/factory/src/contract.rs `try_list_my`: validate the viewing key
(failure is a distinguished answer, not an error); a missing filter defaults
to `All`, which populates both the active and the inactive field through two
single-filter calls. -/
def try_list_my (s : FactoryState) (address : HumanAddr) (viewing_key : String)
    (filter : Option FilterTypes) (start_page : Option Nat) (page_size : Option Nat) :
    Except FactoryErr QueryAnswer :=
  if !is_key_valid s address viewing_key then
    .ok (.ViewingKeyError "Wrong viewing key for this address or viewing key not set")
  else
    let types := filter.getD .All
    let activeE : Except FactoryErr (Option (List StoreOffspringInfo)) :=
      if types = .Active ∨ types = .All then
        match display_active_or_inactive_list s (some address) .Active start_page page_size with
        | .error e => .error e
        | .ok l => .ok (some l)
      else .ok none
    match activeE with
    | .error e => .error e
    | .ok active_list =>
      let inactiveE : Except FactoryErr (Option (List StoreOffspringInfo)) :=
        if types = .Inactive ∨ types = .All then
          match display_active_or_inactive_list s (some address) .Inactive start_page page_size with
          | .error e => .error e
          | .ok l => .ok (some l)
        else .ok none
      match inactiveE with
      | .error e => .error e
      | .ok inactive_list => .ok (.ListMyOffspring active_list inactive_list)

/-- Query messages (src/factory/src/msg.rs `QueryMsg`). -/
inductive QueryMsg where
  | ListMyOffspring (address : HumanAddr) (viewing_key : String)
      (filter : Option FilterTypes) (start_page : Option Nat) (page_size : Option Nat)
  | ListActiveOffspring (start_page : Option Nat) (page_size : Option Nat)
  | ListInactiveOffspring (start_page : Option Nat) (page_size : Option Nat)
  | IsKeyValid (address : HumanAddr) (viewing_key : String)
deriving Repr, DecidableEq

/-- src/factory/src/contract.rs `query` dispatcher. -/
def query (s : FactoryState) (msg : QueryMsg) : Except FactoryErr QueryAnswer :=
  match msg with
  | .ListMyOffspring address viewing_key filter start_page page_size =>
    try_list_my s address viewing_key filter start_page page_size
  | .ListActiveOffspring start_page page_size => try_list_active s start_page page_size
  | .ListInactiveOffspring start_page page_size => try_list_inactive s start_page page_size
  | .IsKeyValid address viewing_key => try_validate_key s address viewing_key

/-- Handle messages (src/factory/src/msg.rs `HandleMsg`). -/
inductive HandleMsg where
  | CreateOffspring (label : String) (entropy : String) (owner : HumanAddr)
      (count : Int) (description : Option String)
  | RegisterOffspring (owner : HumanAddr) (offspring : RegisterOffspringInfo)
  | DeactivateOffspring (owner : HumanAddr)
  | NewOffspringContract (offspring_code_info : CodeInfo)
  | CreateViewingKey (entropy : String)
  | SetViewingKey (key : String)
  | SetStatus (stop : Bool)
deriving Repr, DecidableEq

/-- src/factory/src/contract.rs `handle` dispatcher, projected onto the
resulting state (messages, logs and data dropped). -/
def handle (s : FactoryState) (env : Env) (msg : HandleMsg) :
    Except FactoryErr FactoryState :=
  match msg with
  | .CreateOffspring label entropy owner count description =>
    match try_create_offspring s env label entropy owner count description with
    | .error e => .error e
    | .ok (s', _) => .ok s'
  | .RegisterOffspring owner offspring =>
    match try_register_offspring s env owner offspring with
    | .error e => .error e
    | .ok (s', _) => .ok s'
  | .DeactivateOffspring owner => try_deactivate_offspring s env owner
  | .NewOffspringContract offspring_code_info => try_new_contract s env offspring_code_info
  | .CreateViewingKey entropy => .ok (try_create_key s env entropy).1
  | .SetViewingKey key => .ok (try_set_key s env key)
  | .SetStatus stop => try_set_status s env stop

/-- One atomic transaction: a failed handler leaves the state unchanged
(spec section 5: every operation completes fully or fails atomically with
zero partial mutation; each handler in src/factory/src/contract.rs performs
its writes only after all its checks). -/
def execStep (s : FactoryState) (c : Env × HandleMsg) : FactoryState :=
  match handle s c.1 c.2 with
  | .ok s' => s'
  | .error _ => s

/-- Run a sequence of transactions. -/
def execTrace (s : FactoryState) (tr : List (Env × HandleMsg)) : FactoryState :=
  tr.foldl execStep s

/-! ### Ghost registration owners and the index-consistency invariant

The offspring record (`StoreOffspringInfo`) does not store its owner, so
"its owner's indices" refers to the owner argument supplied when the
identity was registered.  That assignment is tracked as ghost state
alongside the factory state. -/

/-- Ghost map from a registered offspring address to the owner supplied at
its (most recent) registration. -/
abbrev RegOwners := List (HumanAddr × HumanAddr)

/-- One atomic transaction together with its ghost-owner bookkeeping: a
successful registration records the owner argument for the sender. -/
def gstep (g : FactoryState × RegOwners) (c : Env × HandleMsg) :
    FactoryState × RegOwners :=
  (execStep g.1 c,
   match c.2 with
   | .RegisterOffspring owner _ =>
     match handle g.1 c.1 c.2 with
     | .ok _ => kmInsert g.2 c.1.sender owner
     | .error _ => g.2
   | _ => g.2)

/-- Run a sequence of transactions with ghost-owner bookkeeping. -/
def gexec (g : FactoryState × RegOwners) (tr : List (Env × HandleMsg)) :
    FactoryState × RegOwners :=
  tr.foldl gstep g

/-- Side conditions of the amended index-consistency claim, checked at one
step: a registration that succeeds must come from a sender address that was
never registered before, and a deactivation that succeeds must supply the
owner recorded at the sender's registration. -/
def okStepB (g : FactoryState × RegOwners) (c : Env × HandleMsg) : Bool :=
  match c.2 with
  | .RegisterOffspring owner reg =>
    match try_register_offspring g.1 c.1 owner reg with
    | .ok _ => (kmGet g.1.offspring_storage c.1.sender).isNone
    | .error _ => true
  | .DeactivateOffspring owner =>
    match try_deactivate_offspring g.1 c.1 owner with
    | .ok _ => decide (kmGet g.2 c.1.sender = some owner)
    | .error _ => true
  | _ => true

/-- The side conditions hold along a whole trace. -/
def okTrace : FactoryState × RegOwners → List (Env × HandleMsg) → Bool
  | _, [] => true
  | g, c :: rest => okStepB g c && okTrace (gstep g c) rest

/-- The index-consistency invariant exactly as the claim states it: every
registered identity is in exactly one of the global active/inactive indices,
in exactly one of its registration owner's scoped indices, and globally
active iff owner-scoped active. -/
def indexConsistentB (s : FactoryState) (owners : RegOwners) : Bool :=
  (s.offspring_storage.map Prod.fst).all (fun a =>
    match kmGet owners a with
    | none => false
    | some w =>
      (memK s.active_store a != memK s.inactive_store a) &&
      (memK (scopeGet s.owners_active w) a != memK (scopeGet s.owners_inactive w) a) &&
      (memK s.active_store a == memK (scopeGet s.owners_active w) a))

/-- The state produced by a successful `try_register_offspring` (the writes
of src/factory/src/contract.rs lines 206-218 flattened into one record
update). -/
def regSuccState (s : FactoryState) (env : Env) (owner : HumanAddr)
    (reg : RegisterOffspringInfo) : FactoryState :=
  { s with
    pending_password := none
    offspring_storage := kmInsert s.offspring_storage env.sender
      (reg.to_store_offspring_info (s.offspring_code.to_contract_info env.sender))
    active_store := kmInsert s.active_store env.sender true
    owners_active := scopeInsert s.owners_active owner env.sender true }

/-- The state produced by a successful `try_deactivate_offspring` (the
writes of src/factory/src/contract.rs lines 248-260 flattened into one
record update). -/
def deacSuccState (s : FactoryState) (env : Env) (owner : HumanAddr) : FactoryState :=
  { s with
    active_store := kmRemove s.active_store env.sender
    inactive_store := kmInsert s.inactive_store env.sender true
    owners_active := scopeRemove s.owners_active owner env.sender
    owners_inactive := scopeInsert s.owners_inactive owner env.sender true }

/-- Strengthened inductive invariant implying index consistency: an
unregistered address is in no index at all; a registered address has a
recorded registration owner, is in exactly one global index, mirrors the
global classification in that owner's scoped indices, and is absent from
every other owner's scoped indices. -/
def Inv (g : FactoryState × RegOwners) : Prop :=
  (∀ a, kmGet g.1.offspring_storage a = none →
      memK g.1.active_store a = false ∧
      memK g.1.inactive_store a = false ∧
      ∀ o, memK (scopeGet g.1.owners_active o) a = false ∧
           memK (scopeGet g.1.owners_inactive o) a = false) ∧
  (∀ a r, kmGet g.1.offspring_storage a = some r →
      ∃ w, kmGet g.2 a = some w ∧
        memK g.1.active_store a = !memK g.1.inactive_store a ∧
        memK (scopeGet g.1.owners_active w) a = memK g.1.active_store a ∧
        memK (scopeGet g.1.owners_inactive w) a = memK g.1.inactive_store a ∧
        ∀ o, o ≠ w → memK (scopeGet g.1.owners_active o) a = false ∧
                     memK (scopeGet g.1.owners_inactive o) a = false)

end Factory

namespace Offspring

open Factory (HumanAddr ContractInfo)

/-- Errors of the offspring contract.  src/offspring/src/error.rs is not
among the provided sources; the constructors are the variants used by
src/offspring/src/contract.rs (`Unauthorized`, `Inactive`,
`ViewingKeyOrUnauthorized`). -/
inductive ContractError where
  | Unauthorized
  | Inactive
  | ViewingKeyOrUnauthorized
deriving Repr, DecidableEq

/-- Business state of the offspring (src/offspring/src/state.rs `State`). -/
structure State where
  label : String
  description : Option String
  count : Int
deriving Repr, DecidableEq

/-- The offspring contract's durable state: the `ExplicitStorage` items of
src/offspring/src/state.rs written by the entry points. -/
structure OffspringState where
  factory : ContractInfo
  owner : HumanAddr
  is_active : Bool
  state : State
deriving Repr, DecidableEq

/-- Instantiation message of the offspring
(src/offspring/src/msg.rs `InstantiateMsg`) — note: it carries no password. -/
structure InstantiateMsg where
  factory : ContractInfo
  label : String
  description : Option String
  owner : HumanAddr
  count : Int
deriving Repr, DecidableEq

/-- The registration data the offspring emits at instantiation
(src/offspring/src/factory_msg.rs `FactoryOffspringInfo`) — note: it carries
label, owner, address and code hash, and no password. -/
structure FactoryOffspringInfo where
  label : String
  owner : HumanAddr
  address : HumanAddr
  code_hash : String
deriving Repr, DecidableEq

/-- The factory execute message the offspring sends on deactivation
(src/offspring/src/factory_msg.rs `FactoryExecuteMsg`). -/
inductive FactoryExecuteMsg where
  | DeactivateOffspring (owner : HumanAddr)
deriving Repr, DecidableEq

/-- Environment of an offspring call: this contract's address and code hash
(cosmwasm `Env`). -/
structure OEnv where
  contract_address : HumanAddr
  contract_code_hash : String
deriving Repr, DecidableEq

/-- src/offspring/src/contract.rs `instantiate`: store the factory info, the
owner, an active flag set to true and the business state, and emit the
registration data `FactoryOffspringInfo` back to the factory. -/
def instantiate (env : OEnv) (msg : InstantiateMsg) :
    OffspringState × FactoryOffspringInfo :=
  let s : OffspringState :=
    { factory := msg.factory
      owner := msg.owner
      is_active := true
      state := { label := msg.label, description := msg.description, count := msg.count } }
  let offspring_info : FactoryOffspringInfo :=
    { label := msg.label
      owner := msg.owner
      address := env.contract_address
      code_hash := env.contract_code_hash }
  (s, offspring_info)

/-- Execute messages (src/offspring/src/msg.rs `ExecuteMsg`). -/
inductive ExecuteMsg where
  | Increment
  | Reset (count : Int)
  | Deactivate
deriving Repr, DecidableEq

/-- src/offspring/src/contract.rs `enforce_active`. -/
def enforce_active (s : OffspringState) : Except ContractError Unit :=
  if s.is_active then .ok () else .error .Inactive

/-- Wrap-around semantics of Rust's release-mode `i32` addition. -/
def wrap32 (n : Int) : Int :=
  (n + 2 ^ 31) % 2 ^ 32 - 2 ^ 31

/-- src/offspring/src/contract.rs `try_increment`: requires active; anyone
may call it. -/
def try_increment (s : OffspringState) : Except ContractError OffspringState :=
  match enforce_active s with
  | .error e => .error e
  | .ok _ =>
    .ok { s with state := { s.state with count := wrap32 (s.state.count + 1) } }

/-- src/offspring/src/contract.rs `try_reset`: requires active, then
owner-only. -/
def try_reset (s : OffspringState) (sender : HumanAddr) (count : Int) :
    Except ContractError OffspringState :=
  match enforce_active s with
  | .error e => .error e
  | .ok _ =>
    if sender ≠ s.owner then .error .Unauthorized
    else .ok { s with state := { s.state with count := count } }

/-- src/offspring/src/contract.rs `try_deactivate`: requires active, then
owner-only; clears the local active flag and notifies the factory with
`DeactivateOffspring { owner }`. -/
def try_deactivate (s : OffspringState) (sender : HumanAddr) :
    Except ContractError (OffspringState × FactoryExecuteMsg) :=
  match enforce_active s with
  | .error e => .error e
  | .ok _ =>
    if sender ≠ s.owner then .error .Unauthorized
    else .ok ({ s with is_active := false }, .DeactivateOffspring s.owner)

/-- src/offspring/src/contract.rs `execute` dispatcher, projected onto the
resulting state. -/
def execute (s : OffspringState) (sender : HumanAddr) (msg : ExecuteMsg) :
    Except ContractError OffspringState :=
  match msg with
  | .Increment => try_increment s
  | .Reset count => try_reset s sender count
  | .Deactivate =>
    match try_deactivate s sender with
    | .error e => .error e
    | .ok (s', _) => .ok s'

/-- One atomic offspring transaction: a failed handler leaves the state
unchanged. -/
def oexecStep (s : OffspringState) (c : HumanAddr × ExecuteMsg) : OffspringState :=
  match execute s c.1 c.2 with
  | .ok s' => s'
  | .error _ => s

/-- Run a sequence of offspring transactions. -/
def oexecTrace (s : OffspringState) (tr : List (HumanAddr × ExecuteMsg)) : OffspringState :=
  tr.foldl oexecStep s

/-- A freshly instantiated sample offspring owned by "alice". -/
def exOff0 : OffspringState :=
  (instantiate { contract_address := "offx", contract_code_hash := "ohash" }
    { factory := { code_hash := "fhash", address := "factory" }, label := "counter"
      description := none, owner := "alice", count := 0 }).1

/-- The sample offspring after its owner deactivated it. -/
def exOffD : OffspringState :=
  oexecStep exOff0 ("alice", .Deactivate)

end Offspring

namespace Factory

/-! ### Concrete sample data used by counterexamples and witnesses -/

/-- A sample transaction environment with the given sender. -/
def exEnv (sender : HumanAddr) : Env :=
  { sender := sender, block_height := 12, block_time := 34
    contract_address := "factory", contract_code_hash := "fhash" }

/-- Sample offspring code info. -/
def exCode : CodeInfo := { code_id := 1, code_hash := "ohash" }

/-- Factory state freshly initialized by "admin". -/
def exS0 : FactoryState :=
  init (exEnv "admin") { entropy := "seed", offspring_code_info := exCode }

/-- The registration payload presenting the exact pending password of the
given state, as a just-spawned offspring would. -/
def regMsg (s : FactoryState) (label : String) : RegisterOffspringInfo :=
  { label := label, password := s.pending_password.getD [] }

/-- The index selected by `display_active_or_inactive_list` for a
non-`All` filter (global or owner-scoped, active or inactive); `All` selects
nothing. -/
def selectedIndex (s : FactoryState) (owner : Option HumanAddr)
    (filter : FilterTypes) : List (HumanAddr × Bool) :=
  match filter, owner with
  | .Active, some o => scopeGet s.owners_active o
  | .Active, none => s.active_store
  | .Inactive, some o => scopeGet s.owners_inactive o
  | .Inactive, none => s.inactive_store
  | .All, _ => []

/-- Whether a query outcome is the malformed-filter error
("Please select one of active or inactive offspring to list."). -/
def isBadFilter {α : Type} : Except FactoryErr α → Bool
  | .error .badFilter => true
  | _ => false

/-- exS0 after one create for owner "alice". -/
def c1S1 : FactoryState :=
  execStep exS0 (exEnv "alice", .CreateOffspring "X" "e1" "alice" 0 none)

/-- Create for owner "alice", register offspring "offx" with the correct
password for owner "alice", then deactivate from "offx" supplying
`deacOwner` as the owner argument. -/
def c1Trace (deacOwner : HumanAddr) : List (Env × HandleMsg) :=
  [ (exEnv "alice", .CreateOffspring "X" "e1" "alice" 0 none),
    (exEnv "offx", .RegisterOffspring "alice" (regMsg c1S1 "X")),
    (exEnv "offx", .DeactivateOffspring deacOwner) ]

/-- Scenario for paging: three offspring registered in order X, Y, Z for the
same owner.  Each step reuses the exact password pending after the preceding
create. -/
def e5S1 : FactoryState :=
  execStep exS0 (exEnv "alice", .CreateOffspring "X" "ex" "alice" 0 none)

def e5S2 : FactoryState :=
  execStep e5S1 (exEnv "addrX", .RegisterOffspring "alice" (regMsg e5S1 "X"))

def e5S3 : FactoryState :=
  execStep e5S2 (exEnv "alice", .CreateOffspring "Y" "ey" "alice" 0 none)

def e5S4 : FactoryState :=
  execStep e5S3 (exEnv "addrY", .RegisterOffspring "alice" (regMsg e5S3 "Y"))

def e5S5 : FactoryState :=
  execStep e5S4 (exEnv "alice", .CreateOffspring "Z" "ez" "alice" 0 none)

def e5S6 : FactoryState :=
  execStep e5S5 (exEnv "addrZ", .RegisterOffspring "alice" (regMsg e5S5 "Z"))

end Factory

namespace Factory

/-! ### Keymap lemmas -/

theorem kmGet_kmInsert {V : Type} (m : List (HumanAddr × V)) (k k' : HumanAddr) (v : V) :
    kmGet (kmInsert m k v) k' = if k = k' then some v else kmGet m k' := by
  induction m with
  | nil => simp [kmInsert, kmGet]
  | cons hd tl ih =>
    obtain ⟨a, b⟩ := hd
    simp only [kmInsert]
    by_cases hak : a = k
    · subst hak
      simp only [if_pos rfl, kmGet]
      by_cases h : a = k' <;> simp [h]
    · rw [if_neg hak]
      simp only [kmGet]
      by_cases h1 : a = k'
      · have h2 : ¬(k = k') := fun h => hak (h1.trans h.symm)
        simp [h1, h2]
      · simp [h1, ih]

theorem kmGet_kmRemove {V : Type} (m : List (HumanAddr × V)) (k k' : HumanAddr) :
    kmGet (kmRemove m k) k' = if k = k' then none else kmGet m k' := by
  induction m with
  | nil => simp [kmRemove, kmGet]
  | cons hd tl ih =>
    obtain ⟨a, b⟩ := hd
    simp only [kmRemove]
    by_cases hak : a = k
    · subst hak
      rw [if_pos rfl, ih]
      by_cases h : a = k' <;> simp [kmGet, h]
    · rw [if_neg hak]
      simp only [kmGet]
      by_cases h1 : a = k'
      · have h2 : ¬(k = k') := fun h => hak (h1.trans h.symm)
        simp [h1, h2]
      · simp [h1, ih]

theorem memK_kmInsert (m : List (HumanAddr × Bool)) (k k' : HumanAddr) (v : Bool) :
    memK (kmInsert m k v) k' = if k = k' then v else memK m k' := by
  by_cases h : k = k' <;> simp [memK, kmGet_kmInsert, h]

theorem memK_kmRemove (m : List (HumanAddr × Bool)) (k k' : HumanAddr) :
    memK (kmRemove m k) k' = if k = k' then false else memK m k' := by
  by_cases h : k = k' <;> simp [memK, kmGet_kmRemove, h]

theorem scopeGet_scopeInsert (m : List (HumanAddr × List (HumanAddr × Bool)))
    (o o' k : HumanAddr) (v : Bool) :
    scopeGet (scopeInsert m o k v) o' =
      if o = o' then kmInsert (scopeGet m o) k v else scopeGet m o' := by
  by_cases h : o = o' <;> simp [scopeGet, scopeInsert, kmGet_kmInsert, h]

theorem scopeGet_scopeRemove (m : List (HumanAddr × List (HumanAddr × Bool)))
    (o o' k : HumanAddr) :
    scopeGet (scopeRemove m o k) o' =
      if o = o' then kmRemove (scopeGet m o) k else scopeGet m o' := by
  by_cases h : o = o' <;> simp [scopeGet, scopeRemove, kmGet_kmInsert, h]

theorem memK_scopeInsert_other (m : List (HumanAddr × List (HumanAddr × Bool)))
    (o o' k a : HumanAddr) (v : Bool) (hka : k ≠ a) :
    memK (scopeGet (scopeInsert m o k v) o') a = memK (scopeGet m o') a := by
  rw [scopeGet_scopeInsert]
  by_cases h : o = o'
  · rw [if_pos h, memK_kmInsert, if_neg hka, h]
  · rw [if_neg h]

theorem memK_scopeRemove_other (m : List (HumanAddr × List (HumanAddr × Bool)))
    (o o' k a : HumanAddr) (hka : k ≠ a) :
    memK (scopeGet (scopeRemove m o k) o') a = memK (scopeGet m o') a := by
  rw [scopeGet_scopeRemove]
  by_cases h : o = o'
  · rw [if_pos h, memK_kmRemove, if_neg hka, h]
  · rw [if_neg h]

theorem kmGet_isSome_of_mem {V : Type} (m : List (HumanAddr × V)) (a : HumanAddr)
    (h : a ∈ m.map Prod.fst) : ∃ v, kmGet m a = some v := by
  induction m with
  | nil => simp at h
  | cons hd tl ih =>
    obtain ⟨k, v⟩ := hd
    by_cases hk : k = a
    · exact ⟨v, by simp [kmGet, hk]⟩
    · rcases List.mem_cons.mp h with h1 | h1
      · exact absurd h1.symm hk
      · obtain ⟨v', hv'⟩ := ih h1
        exact ⟨v', by simp [kmGet, hk, hv']⟩

/-! ### Handler equation lemmas -/

theorem try_register_offspring_eq (s : FactoryState) (env : Env) (owner : HumanAddr)
    (reg : RegisterOffspringInfo) :
    try_register_offspring s env owner reg =
      match s.pending_password with
      | none => .error .authFailed
      | some p =>
        if p = reg.password then .ok (regSuccState s env owner reg, env.sender)
        else .error .passwordMismatch := by
  cases hp : s.pending_password with
  | none => simp [try_register_offspring, hp]
  | some p =>
    by_cases h : p = reg.password <;>
      simp [try_register_offspring, regSuccState, CodeInfo.to_contract_info, hp, h]

theorem try_deactivate_offspring_eq (s : FactoryState) (env : Env) (owner : HumanAddr) :
    try_deactivate_offspring s env owner =
      if memK s.active_store env.sender then .ok (deacSuccState s env owner)
      else .error .alreadyInactive := by
  cases h : memK s.active_store env.sender <;>
    simp [try_deactivate_offspring, deacSuccState, h]

theorem try_create_offspring_eq (s : FactoryState) (env : Env) (label entropy : String)
    (owner : HumanAddr) (count : Int) (description : Option String) :
    try_create_offspring s env label entropy owner count description =
      if s.is_stopped then .error .factoryStopped
      else
        .ok ({ s with
                prng_seed := new_entropy env s.prng_seed (strBytes entropy)
                pending_password := some (sha_256 (new_entropy env s.prng_seed (strBytes entropy))) },
             { factory := { code_hash := env.contract_code_hash, address := env.contract_address }
               label := label
               password := sha_256 (new_entropy env s.prng_seed (strBytes entropy))
               owner := owner, count := count, description := description }) := by
  cases h : s.is_stopped <;> simp [try_create_offspring, h]

/-! ### The index-consistency invariant is inductive -/

theorem indexConsistent_of_Inv (g : FactoryState × RegOwners) (h : Inv g) :
    indexConsistentB g.1 g.2 = true := by
  obtain ⟨h1, h2⟩ := h
  unfold indexConsistentB
  rw [List.all_eq_true]
  intro a ha
  obtain ⟨r, hr⟩ := kmGet_isSome_of_mem _ a ha
  obtain ⟨w, hw, hxor, hoa, hoi, _⟩ := h2 a r hr
  simp only [hw, hoa, hoi, hxor]
  cases memK g.1.inactive_store a <;> rfl

theorem Inv_init (env : Env) (msg : InitMsg) : Inv (init env msg, ([] : RegOwners)) := by
  constructor
  · intro a _
    exact ⟨rfl, rfl, fun o => ⟨rfl, rfl⟩⟩
  · intro a r h
    simp [init, kmGet] at h

theorem Inv_register (s : FactoryState) (ghost : RegOwners) (env : Env)
    (owner : HumanAddr) (reg : RegisterOffspringInfo)
    (hI : Inv (s, ghost)) (hfresh : kmGet s.offspring_storage env.sender = none) :
    Inv (regSuccState s env owner reg, kmInsert ghost env.sender owner) := by
  obtain ⟨h1, h2⟩ := hI
  obtain ⟨hact0, hinact0, hsc0⟩ := h1 env.sender hfresh
  constructor
  · intro a ha
    have ha' : kmGet (kmInsert s.offspring_storage env.sender
        (reg.to_store_offspring_info (s.offspring_code.to_contract_info env.sender))) a
        = none := ha
    rw [kmGet_kmInsert] at ha'
    by_cases hsa : env.sender = a
    · rw [if_pos hsa] at ha'
      exact absurd ha' (by simp)
    · rw [if_neg hsa] at ha'
      obtain ⟨ha1, ha2, ha3⟩ := h1 a ha'
      refine ⟨?_, ha2, fun o => ⟨?_, (ha3 o).2⟩⟩
      · show memK (kmInsert s.active_store env.sender true) a = false
        rw [memK_kmInsert, if_neg hsa]; exact ha1
      · show memK (scopeGet (scopeInsert s.owners_active owner env.sender true) o) a = false
        rw [memK_scopeInsert_other _ _ _ _ _ _ hsa]; exact (ha3 o).1
  · intro a r hstore
    have hstore' : kmGet (kmInsert s.offspring_storage env.sender
        (reg.to_store_offspring_info (s.offspring_code.to_contract_info env.sender))) a
        = some r := hstore
    rw [kmGet_kmInsert] at hstore'
    by_cases hsa : env.sender = a
    · subst hsa
      refine ⟨owner, ?_, ?_, ?_, ?_, ?_⟩
      · show kmGet (kmInsert ghost env.sender owner) env.sender = some owner
        rw [kmGet_kmInsert, if_pos rfl]
      · show memK (kmInsert s.active_store env.sender true) env.sender
            = !memK s.inactive_store env.sender
        rw [memK_kmInsert, if_pos rfl, hinact0]; rfl
      · show memK (scopeGet (scopeInsert s.owners_active owner env.sender true) owner) env.sender
            = memK (kmInsert s.active_store env.sender true) env.sender
        rw [scopeGet_scopeInsert, if_pos rfl, memK_kmInsert, if_pos rfl,
          memK_kmInsert, if_pos rfl]
      · show memK (scopeGet s.owners_inactive owner) env.sender
            = memK s.inactive_store env.sender
        rw [hinact0, (hsc0 owner).2]
      · intro o ho
        refine ⟨?_, (hsc0 o).2⟩
        show memK (scopeGet (scopeInsert s.owners_active owner env.sender true) o) env.sender
            = false
        rw [scopeGet_scopeInsert, if_neg (fun h => ho h.symm)]
        exact (hsc0 o).1
    · rw [if_neg hsa] at hstore'
      obtain ⟨w, hw, hx, hoa, hoi, hother⟩ := h2 a r hstore'
      refine ⟨w, ?_, ?_, ?_, hoi, ?_⟩
      · show kmGet (kmInsert ghost env.sender owner) a = some w
        rw [kmGet_kmInsert, if_neg hsa]; exact hw
      · show memK (kmInsert s.active_store env.sender true) a
            = !memK s.inactive_store a
        rw [memK_kmInsert, if_neg hsa]; exact hx
      · show memK (scopeGet (scopeInsert s.owners_active owner env.sender true) w) a
            = memK (kmInsert s.active_store env.sender true) a
        rw [memK_scopeInsert_other _ _ _ _ _ _ hsa, memK_kmInsert, if_neg hsa]
        exact hoa
      · intro o ho
        refine ⟨?_, (hother o ho).2⟩
        show memK (scopeGet (scopeInsert s.owners_active owner env.sender true) o) a = false
        rw [memK_scopeInsert_other _ _ _ _ _ _ hsa]
        exact (hother o ho).1

theorem Inv_deactivate (s : FactoryState) (ghost : RegOwners) (env : Env) (owner : HumanAddr)
    (hI : Inv (s, ghost)) (hact : memK s.active_store env.sender = true)
    (hghost : kmGet ghost env.sender = some owner) :
    Inv (deacSuccState s env owner, ghost) := by
  obtain ⟨h1, h2⟩ := hI
  cases hsr : kmGet s.offspring_storage env.sender with
  | none =>
    obtain ⟨hfa, _, _⟩ := h1 env.sender hsr
    rw [hact] at hfa
    exact absurd hfa (by simp)
  | some r0 =>
  obtain ⟨w0, hw0, hx0, hoa0, hoi0, hot0⟩ := h2 env.sender r0 hsr
  rw [hghost] at hw0
  have hww : owner = w0 := Option.some.inj hw0
  subst hww
  constructor
  · intro a ha
    have ha' : kmGet s.offspring_storage a = none := ha
    by_cases hsa : env.sender = a
    · rw [← hsa, hsr] at ha'
      exact absurd ha' (by simp)
    · obtain ⟨ha1, ha2, ha3⟩ := h1 a ha'
      refine ⟨?_, ?_, fun o => ⟨?_, ?_⟩⟩
      · show memK (kmRemove s.active_store env.sender) a = false
        rw [memK_kmRemove, if_neg hsa]; exact ha1
      · show memK (kmInsert s.inactive_store env.sender true) a = false
        rw [memK_kmInsert, if_neg hsa]; exact ha2
      · show memK (scopeGet (scopeRemove s.owners_active owner env.sender) o) a = false
        rw [memK_scopeRemove_other _ _ _ _ _ hsa]; exact (ha3 o).1
      · show memK (scopeGet (scopeInsert s.owners_inactive owner env.sender true) o) a = false
        rw [memK_scopeInsert_other _ _ _ _ _ _ hsa]; exact (ha3 o).2
  · intro a r hstore
    have hstore' : kmGet s.offspring_storage a = some r := hstore
    by_cases hsa : env.sender = a
    · subst hsa
      refine ⟨owner, hghost, ?_, ?_, ?_, ?_⟩
      · show memK (kmRemove s.active_store env.sender) env.sender
            = !memK (kmInsert s.inactive_store env.sender true) env.sender
        rw [memK_kmRemove, if_pos rfl, memK_kmInsert, if_pos rfl]; rfl
      · show memK (scopeGet (scopeRemove s.owners_active owner env.sender) owner) env.sender
            = memK (kmRemove s.active_store env.sender) env.sender
        rw [scopeGet_scopeRemove, if_pos rfl, memK_kmRemove, if_pos rfl,
          memK_kmRemove, if_pos rfl]
      · show memK (scopeGet (scopeInsert s.owners_inactive owner env.sender true) owner) env.sender
            = memK (kmInsert s.inactive_store env.sender true) env.sender
        rw [scopeGet_scopeInsert, if_pos rfl, memK_kmInsert, if_pos rfl,
          memK_kmInsert, if_pos rfl]
      · intro o ho
        refine ⟨?_, ?_⟩
        · show memK (scopeGet (scopeRemove s.owners_active owner env.sender) o) env.sender = false
          rw [scopeGet_scopeRemove, if_neg (fun h => ho h.symm)]
          exact (hot0 o ho).1
        · show memK (scopeGet (scopeInsert s.owners_inactive owner env.sender true) o) env.sender
              = false
          rw [scopeGet_scopeInsert, if_neg (fun h => ho h.symm)]
          exact (hot0 o ho).2
    · obtain ⟨w, hw, hx, hoa, hoi, hother⟩ := h2 a r hstore'
      refine ⟨w, hw, ?_, ?_, ?_, ?_⟩
      · show memK (kmRemove s.active_store env.sender) a
            = !memK (kmInsert s.inactive_store env.sender true) a
        rw [memK_kmRemove, if_neg hsa, memK_kmInsert, if_neg hsa]; exact hx
      · show memK (scopeGet (scopeRemove s.owners_active owner env.sender) w) a
            = memK (kmRemove s.active_store env.sender) a
        rw [memK_scopeRemove_other _ _ _ _ _ hsa, memK_kmRemove, if_neg hsa]
        exact hoa
      · show memK (scopeGet (scopeInsert s.owners_inactive owner env.sender true) w) a
            = memK (kmInsert s.inactive_store env.sender true) a
        rw [memK_scopeInsert_other _ _ _ _ _ _ hsa, memK_kmInsert, if_neg hsa]
        exact hoi
      · intro o ho
        refine ⟨?_, ?_⟩
        · show memK (scopeGet (scopeRemove s.owners_active owner env.sender) o) a = false
          rw [memK_scopeRemove_other _ _ _ _ _ hsa]
          exact (hother o ho).1
        · show memK (scopeGet (scopeInsert s.owners_inactive owner env.sender true) o) a = false
          rw [memK_scopeInsert_other _ _ _ _ _ _ hsa]
          exact (hother o ho).2

theorem Inv_of_indices_eq (s s' : FactoryState) (ghost : RegOwners)
    (h : Inv (s, ghost))
    (h1 : s'.offspring_storage = s.offspring_storage)
    (h2 : s'.active_store = s.active_store)
    (h3 : s'.inactive_store = s.inactive_store)
    (h4 : s'.owners_active = s.owners_active)
    (h5 : s'.owners_inactive = s.owners_inactive) :
    Inv (s', ghost) := by
  unfold Inv at h ⊢
  simp only [h1, h2, h3, h4, h5]
  simpa using h

theorem Inv_gstep (g : FactoryState × RegOwners) (c : Env × HandleMsg)
    (hI : Inv g) (hok : okStepB g c = true) : Inv (gstep g c) := by
  obtain ⟨s, ghost⟩ := g
  obtain ⟨env, msg⟩ := c
  cases msg with
  | CreateOffspring label entropy owner count description =>
    have hg : gstep (s, ghost) (env, .CreateOffspring label entropy owner count description)
        = (execStep s (env, .CreateOffspring label entropy owner count description), ghost) := rfl
    rw [hg]
    refine Inv_of_indices_eq s _ ghost hI ?_ ?_ ?_ ?_ ?_ <;>
      cases hs : s.is_stopped <;>
        simp [execStep, handle, try_create_offspring, hs]
  | RegisterOffspring owner reg =>
    cases hreg : try_register_offspring s env owner reg with
    | error e =>
      have hg : gstep (s, ghost) (env, .RegisterOffspring owner reg) = (s, ghost) := by
        simp [gstep, execStep, handle, hreg]
      rw [hg]; exact hI
    | ok p =>
      have hok' : kmGet s.offspring_storage env.sender = none := by
        have := hok
        simp only [okStepB, hreg, Option.isNone_iff_eq_none] at this
        exact this
      have heq := try_register_offspring_eq s env owner reg
      rw [hreg] at heq
      cases hp : s.pending_password with
      | none => rw [hp] at heq; exact absurd heq (by simp)
      | some pw =>
        rw [hp] at heq
        by_cases hpw : pw = reg.password
        · have hps : p = (regSuccState s env owner reg, env.sender) := by
            simpa [hpw] using heq
          have hg : gstep (s, ghost) (env, .RegisterOffspring owner reg)
              = (regSuccState s env owner reg, kmInsert ghost env.sender owner) := by
            simp [gstep, execStep, handle, hreg, hps]
          rw [hg]
          exact Inv_register s ghost env owner reg hI hok'
        · simp [hpw] at heq
  | DeactivateOffspring owner =>
    cases hdeac : try_deactivate_offspring s env owner with
    | error e =>
      have hg : gstep (s, ghost) (env, .DeactivateOffspring owner) = (s, ghost) := by
        simp [gstep, execStep, handle, hdeac]
      rw [hg]; exact hI
    | ok s' =>
      have hok' : kmGet ghost env.sender = some owner := by
        have := hok
        simp only [okStepB, hdeac, decide_eq_true_eq] at this
        exact this
      have heq := try_deactivate_offspring_eq s env owner
      rw [hdeac] at heq
      cases hact : memK s.active_store env.sender
      · rw [hact] at heq
        exact absurd heq (by simp)
      · rw [hact] at heq
        simp only [if_pos] at heq
        have hs' : s' = deacSuccState s env owner := by
          simpa using heq
        have hg : gstep (s, ghost) (env, .DeactivateOffspring owner)
            = (deacSuccState s env owner, ghost) := by
          simp [gstep, execStep, handle, hdeac, hs']
        rw [hg]
        exact Inv_deactivate s ghost env owner hI hact hok'
  | NewOffspringContract offspring_code_info =>
    have hg : gstep (s, ghost) (env, .NewOffspringContract offspring_code_info)
        = (execStep s (env, .NewOffspringContract offspring_code_info), ghost) := rfl
    rw [hg]
    refine Inv_of_indices_eq s _ ghost hI ?_ ?_ ?_ ?_ ?_ <;>
      by_cases hs : s.admin = env.sender <;>
        simp [execStep, handle, try_new_contract, hs]
  | CreateViewingKey entropy =>
    have hg : gstep (s, ghost) (env, .CreateViewingKey entropy)
        = (execStep s (env, .CreateViewingKey entropy), ghost) := rfl
    rw [hg]
    exact Inv_of_indices_eq s _ ghost hI rfl rfl rfl rfl rfl
  | SetViewingKey key =>
    have hg : gstep (s, ghost) (env, .SetViewingKey key)
        = (execStep s (env, .SetViewingKey key), ghost) := rfl
    rw [hg]
    exact Inv_of_indices_eq s _ ghost hI rfl rfl rfl rfl rfl
  | SetStatus stop =>
    have hg : gstep (s, ghost) (env, .SetStatus stop)
        = (execStep s (env, .SetStatus stop), ghost) := rfl
    rw [hg]
    refine Inv_of_indices_eq s _ ghost hI ?_ ?_ ?_ ?_ ?_ <;>
      by_cases hs : s.admin = env.sender <;>
        simp [execStep, handle, try_set_status, hs]

theorem Inv_okTrace (g : FactoryState × RegOwners) (tr : List (Env × HandleMsg))
    (hI : Inv g) (hok : okTrace g tr = true) : Inv (gexec g tr) := by
  induction tr generalizing g with
  | nil => simpa [gexec] using hI
  | cons c rest ih =>
    rw [okTrace, Bool.and_eq_true] at hok
    have hstep := Inv_gstep g c hI hok.1
    have : gexec g (c :: rest) = gexec (gstep g c) rest := by
      simp [gexec]
    rw [this]
    exact ih (gstep g c) hstep hok.2

/-! ### Claim C1 -/

/-- Claim C1 counterexample: the claim's "in particular" case fails on the
code.  Starting from a fresh factory: create for owner "alice", register
sender "offx" with the correct password and owner "alice", then deactivate
from "offx" supplying owner "bob".  `try_deactivate_offspring` moves "offx"
out of the global active index (keyed by sender) but updates the scoped
indices of "bob" (the caller-supplied owner), leaving "offx" in "alice"'s
owner-scoped active index while globally inactive — so the registered
identity "offx" violates global-active ⇔ owner-scoped-active. -/
theorem C1_counterexample :
    indexConsistentB (gexec (exS0, []) (c1Trace "bob")).1
      (gexec (exS0, []) (c1Trace "bob")).2 = false := by
  decide

/-- Claim C1 (amended): after any sequence of coordinator operations from a
fresh factory in which every successful registration comes from a
never-registered sender address and every successful deactivation supplies
the owner argument recorded at the sender's registration, every registered
identity is in exactly one of the global active/inactive indices, in
exactly one of its registration owner's scoped indices, and is globally
active iff owner-scoped active. -/
theorem C1_index_consistency (env0 : Env) (imsg : InitMsg)
    (tr : List (Env × HandleMsg))
    (hok : okTrace (init env0 imsg, ([] : RegOwners)) tr = true) :
    indexConsistentB (gexec (init env0 imsg, []) tr).1
      (gexec (init env0 imsg, []) tr).2 = true :=
  indexConsistent_of_Inv _ (Inv_okTrace _ tr (Inv_init env0 imsg) hok)

/-- Witness for C1: the amended theorem applied to the concrete three-step
trace whose deactivation supplies the registration owner "alice". -/
theorem C1_index_consistency_witness :
    indexConsistentB
      (gexec (init (exEnv "admin") { entropy := "seed", offspring_code_info := exCode }, [])
        (c1Trace "alice")).1
      (gexec (init (exEnv "admin") { entropy := "seed", offspring_code_info := exCode }, [])
        (c1Trace "alice")).2 = true :=
  C1_index_consistency (exEnv "admin")
    { entropy := "seed", offspring_code_info := exCode } (c1Trace "alice") (by decide)

/-! ### Claim C2 -/

/-- Claim C2: for every coordinator state and presented password,
`try_register_offspring` fails with an error and leaves the whole state
(pending slot, record store, and all four indices) unchanged unless the
pending slot holds exactly the presented password; on a match it clears the
slot, stores the record keyed by the sender address, and inserts the sender
into the global active index and the owner-scoped active index. -/
theorem C2_register_auth_atomic (s : FactoryState) (env : Env) (owner : HumanAddr)
    (reg : RegisterOffspringInfo) :
    (s.pending_password ≠ some reg.password →
      (∃ e, try_register_offspring s env owner reg = .error e) ∧
        execStep s (env, .RegisterOffspring owner reg) = s) ∧
    (s.pending_password = some reg.password →
      try_register_offspring s env owner reg
        = .ok (regSuccState s env owner reg, env.sender) ∧
      (regSuccState s env owner reg).pending_password = none ∧
      kmGet (regSuccState s env owner reg).offspring_storage env.sender
        = some (reg.to_store_offspring_info (s.offspring_code.to_contract_info env.sender)) ∧
      memK (regSuccState s env owner reg).active_store env.sender = true ∧
      memK (scopeGet (regSuccState s env owner reg).owners_active owner) env.sender = true) := by
  have heq := try_register_offspring_eq s env owner reg
  constructor
  · intro hne
    cases hp : s.pending_password with
    | none =>
      rw [hp] at heq
      refine ⟨⟨.authFailed, heq⟩, ?_⟩
      simp [execStep, handle, heq]
    | some pw =>
      have hpw : ¬(pw = reg.password) := fun h => hne (hp.trans (by rw [h]))
      rw [hp] at heq
      simp only [if_neg hpw] at heq
      refine ⟨⟨.passwordMismatch, heq⟩, ?_⟩
      simp [execStep, handle, heq]
  · intro hsome
    rw [hsome] at heq
    refine ⟨by simpa using heq, rfl, ?_, ?_, ?_⟩
    · show kmGet (kmInsert s.offspring_storage env.sender
          (reg.to_store_offspring_info (s.offspring_code.to_contract_info env.sender)))
          env.sender = _
      rw [kmGet_kmInsert, if_pos rfl]
    · show memK (kmInsert s.active_store env.sender true) env.sender = true
      rw [memK_kmInsert, if_pos rfl]
    · show memK (scopeGet (scopeInsert s.owners_active owner env.sender true) owner)
          env.sender = true
      rw [scopeGet_scopeInsert, if_pos rfl, memK_kmInsert, if_pos rfl]

/-- Witness for C2: at the post-create state, a wrong password (the empty
byte string) fails and leaves the state unchanged, while the exact pending
password succeeds with the described result. -/
theorem C2_register_auth_atomic_witness :
    ((∃ e, try_register_offspring c1S1 (exEnv "offx") "alice"
        { label := "X", password := [] } = .error e) ∧
      execStep c1S1 (exEnv "offx", .RegisterOffspring "alice"
        { label := "X", password := [] }) = c1S1) ∧
    try_register_offspring c1S1 (exEnv "offx") "alice" (regMsg c1S1 "X")
      = .ok (regSuccState c1S1 (exEnv "offx") "alice" (regMsg c1S1 "X"), "offx") :=
  ⟨(C2_register_auth_atomic c1S1 (exEnv "offx") "alice"
      { label := "X", password := [] }).1 (by decide),
   ((C2_register_auth_atomic c1S1 (exEnv "offx") "alice" (regMsg c1S1 "X")).2 (by decide)).1⟩

/-! ### Claim C3 -/

/-- Claim C3: a successful registration clears the pending password slot;
from a state with an empty slot every registration fails, and no handler
other than CreateOffspring refills the slot — so after one success the same
(now consumed) password fails and no registration succeeds until the next
create mints a new password. -/
theorem C3_one_registration (s : FactoryState) :
    (∀ env owner reg s1 a,
      try_register_offspring s env owner reg = .ok (s1, a) →
      s1.pending_password = none ∧
      ∀ env' owner' reg',
        try_register_offspring s1 env' owner' reg' = .error .authFailed) ∧
    (s.pending_password = none →
      ∀ env owner reg, try_register_offspring s env owner reg = .error .authFailed) ∧
    (∀ env msg, s.pending_password = none →
      (∀ label entropy owner count d, msg ≠ .CreateOffspring label entropy owner count d) →
      (execStep s (env, msg)).pending_password = none) := by
  have hnone : ∀ t : FactoryState, t.pending_password = none →
      ∀ env owner reg, try_register_offspring t env owner reg = .error .authFailed := by
    intro t ht env owner reg
    rw [try_register_offspring_eq, ht]
  refine ⟨?_, hnone s, ?_⟩
  · intro env owner reg s1 a h
    rw [try_register_offspring_eq] at h
    cases hp : s.pending_password with
    | none => rw [hp] at h; exact absurd h (by simp)
    | some pw =>
      rw [hp] at h
      by_cases hpw : pw = reg.password
      · have hs1 : s1 = regSuccState s env owner reg := by
          have := h
          simp only [hpw, if_pos rfl] at this
          exact (congrArg Prod.fst (Except.ok.inj this)).symm
        subst hs1
        exact ⟨rfl, hnone _ rfl⟩
      · simp [hpw] at h
  · intro env msg hpend hmsg
    cases msg with
    | CreateOffspring label entropy owner count d => exact absurd rfl (hmsg label entropy owner count d)
    | RegisterOffspring owner reg =>
      simp [execStep, handle, hnone s hpend env owner reg, hpend]
    | DeactivateOffspring owner =>
      cases h : memK s.active_store env.sender <;>
        simp [execStep, handle, try_deactivate_offspring_eq, deacSuccState, h, hpend]
    | NewOffspringContract ci =>
      by_cases h : s.admin = env.sender <;>
        simp [execStep, handle, try_new_contract, h, hpend]
    | CreateViewingKey entropy =>
      simp [execStep, handle, try_create_key, hpend]
    | SetViewingKey key =>
      simp [execStep, handle, try_set_key, hpend]
    | SetStatus stop =>
      by_cases h : s.admin = env.sender <;>
        simp [execStep, handle, try_set_status, h, hpend]

/-- Witness for C3: the registration of "addrX" succeeds once, empties the
slot, and presenting the same (consumed) password again fails. -/
theorem C3_one_registration_witness :
    e5S2.pending_password = none ∧
    try_register_offspring e5S2 (exEnv "addrX2") "alice" (regMsg e5S1 "X")
      = .error .authFailed :=
  have h : try_register_offspring e5S1 (exEnv "addrX") "alice" (regMsg e5S1 "X")
      = .ok (e5S2, "addrX") := by rfl
  have hparts := (C3_one_registration e5S1).1 (exEnv "addrX") "alice" (regMsg e5S1 "X")
    e5S2 "addrX" h
  ⟨hparts.1, hparts.2 (exEnv "addrX2") "alice" (regMsg e5S1 "X")⟩

/-! ### Claim C4 -/

/-- Claim C4 (code bug): the registration data the offspring emits at
instantiation is exactly `{label, owner, address, code_hash}` — it carries
no password, and the offspring's `InstantiateMsg` has no password field at
all, while the factory's registration handler requires a
`RegisterOffspringInfo` `{label, password}` equal to the pending password.
Shown in general and at the concrete failing input. -/
theorem C4_registration_message_lacks_password :
    (∀ (env : Offspring.OEnv) (msg : Offspring.InstantiateMsg),
      (Offspring.instantiate env msg).2
        = { label := msg.label, owner := msg.owner
            address := env.contract_address, code_hash := env.contract_code_hash }) ∧
    (Offspring.instantiate
        { contract_address := "offx", contract_code_hash := "ohash" }
        { factory := { code_hash := "fhash", address := "factory" }, label := "counter"
          description := none, owner := "alice", count := 0 }).2
      = { label := "counter", owner := "alice", address := "offx", code_hash := "ohash" } :=
  ⟨fun _ _ => rfl, rfl⟩

/-! ### Claim C5 -/

theorem resolveKeys_ok_length (s : FactoryState) (keys : List HumanAddr)
    (l : List StoreOffspringInfo) (h : resolveKeys s keys = .ok l) :
    l.length = keys.length := by
  induction keys generalizing l with
  | nil =>
    simp only [resolveKeys] at h
    obtain rfl : ([] : List StoreOffspringInfo) = l := Except.ok.inj h
    rfl
  | cons k rest ih =>
    simp only [resolveKeys] at h
    cases hk : kmGet s.offspring_storage k with
    | none => rw [hk] at h; exact absurd h (by simp)
    | some info =>
      rw [hk] at h
      cases hrest : resolveKeys s rest with
      | error e => rw [hrest] at h; exact absurd h (by simp)
      | ok l' =>
        rw [hrest] at h
        obtain rfl : info :: l' = l := Except.ok.inj h
        simp [ih l' hrest]

/-- Claim C5: for every list query with a single filter, the page returned
resolves exactly the keys obtained by skipping `start_page * page_size` and
taking at most `page_size` of the selected index, in stored (insertion)
order; a successful page has at most `page_size` entries; `page_size = 0`
and a start page beyond the populated range both yield the empty list;
omitted paging parameters default to `start_page = 0` and
`page_size = DEFAULT_PAGE_SIZE = 200`; and with X, Y, Z registered in that
order, `list_active(start_page = 1, page_size = 1)` returns exactly [Y]. -/
theorem C5_paging :
    (∀ s owner filter start size, filter ≠ FilterTypes.All →
      display_active_or_inactive_list s owner filter (some start) (some size)
        = resolveKeys s
            ((((selectedIndex s owner filter).map Prod.fst).drop (start * size)).take size)) ∧
    (∀ s owner filter start size l,
      display_active_or_inactive_list s owner filter (some start) (some size) = .ok l →
      l.length ≤ size) ∧
    (∀ s owner filter start, filter ≠ FilterTypes.All →
      display_active_or_inactive_list s owner filter (some start) (some 0) = .ok []) ∧
    (∀ s owner filter start size, filter ≠ FilterTypes.All →
      (selectedIndex s owner filter).length ≤ start * size →
      display_active_or_inactive_list s owner filter (some start) (some size) = .ok []) ∧
    (∀ s owner filter,
      display_active_or_inactive_list s owner filter none none
        = display_active_or_inactive_list s owner filter (some 0) (some DEFAULT_PAGE_SIZE)) ∧
    DEFAULT_PAGE_SIZE = 200 ∧
    try_list_active e5S6 (some 1) (some 1)
      = .ok (.ListActiveOffspring
          [{ contract := { code_hash := "ohash", address := "addrY" }, label := "Y" }]) := by
  have hmain : ∀ s owner filter start size, filter ≠ FilterTypes.All →
      display_active_or_inactive_list s owner filter (some start) (some size)
        = resolveKeys s
            ((((selectedIndex s owner filter).map Prod.fst).drop (start * size)).take size) := by
    intro s owner filter start size hf
    cases filter with
    | All => exact absurd rfl hf
    | Active =>
      cases owner <;> simp [display_active_or_inactive_list, selectedIndex]
    | Inactive =>
      cases owner <;> simp [display_active_or_inactive_list, selectedIndex]
  refine ⟨hmain, ?_, ?_, ?_, ?_, rfl, by rfl⟩
  · intro s owner filter start size l h
    cases filter with
    | All =>
      rw [show display_active_or_inactive_list s owner .All (some start) (some size)
          = .error .badFilter from rfl] at h
      exact absurd h (by simp)
    | Active =>
      rw [hmain s owner .Active start size (by simp)] at h
      have := resolveKeys_ok_length s _ l h
      rw [this]
      exact List.length_take_le _ _
    | Inactive =>
      rw [hmain s owner .Inactive start size (by simp)] at h
      have := resolveKeys_ok_length s _ l h
      rw [this]
      exact List.length_take_le _ _
  · intro s owner filter start hf
    rw [hmain s owner filter start 0 hf]
    simp [resolveKeys]
  · intro s owner filter start size hf hlen
    rw [hmain s owner filter start size hf]
    have hdrop : ((selectedIndex s owner filter).map Prod.fst).drop (start * size) = [] := by
      apply List.drop_eq_nil_of_le
      simpa using hlen
    rw [hdrop]
    simp [resolveKeys]
  · intro s owner filter
    rfl

/-- Witness for C5: the paging equality and the empty-page clauses applied
to the concrete three-registration state. -/
theorem C5_paging_witness :
    display_active_or_inactive_list e5S6 none .Active (some 1) (some 1)
      = resolveKeys e5S6
          ((((selectedIndex e5S6 none .Active).map Prod.fst).drop (1 * 1)).take 1) ∧
    display_active_or_inactive_list e5S6 none .Active (some 0) (some 0) = .ok [] ∧
    display_active_or_inactive_list e5S6 none .Active (some 7) (some 200) = .ok [] :=
  ⟨(C5_paging.1 e5S6 none .Active 1 1 (by simp)),
   (C5_paging.2.2.1 e5S6 none .Active 0 (by simp)),
   (C5_paging.2.2.2.1 e5S6 none .Active 7 200 (by simp) (by decide))⟩

/-! ### Claim C6 -/

/-- Claim C6: after `try_create_key`, `is_key_valid` accepts exactly the
returned key for the caller and rejects every other string; an identity
with no stored key is always rejected. -/
theorem C6_viewing_key (s : FactoryState) (env : Env) (entropy : String) :
    is_key_valid (try_create_key s env entropy).1 env.sender
      (try_create_key s env entropy).2 = true ∧
    (∀ other, other ≠ (try_create_key s env entropy).2 →
      is_key_valid (try_create_key s env entropy).1 env.sender other = false) ∧
    (∀ addr key, kmGet s.viewing_keys addr = none →
      is_key_valid s addr key = false) := by
  refine ⟨?_, ?_, ?_⟩
  · show is_key_valid
        { s with viewing_keys := kmInsert s.viewing_keys env.sender (viewing_key_mint s env entropy) }
        env.sender (viewing_key_mint s env entropy) = true
    simp [is_key_valid, kmGet_kmInsert]
  · intro other hne
    show is_key_valid
        { s with viewing_keys := kmInsert s.viewing_keys env.sender (viewing_key_mint s env entropy) }
        env.sender other = false
    have : ¬(viewing_key_mint s env entropy = other) := fun h => hne h.symm
    simp [is_key_valid, kmGet_kmInsert, this]
  · intro addr key h
    simp [is_key_valid, h]

/-- Witness for C6: concrete key creation by "alice"; the minted key
validates, a different string and a keyless identity do not. -/
theorem C6_viewing_key_witness :
    is_key_valid (try_create_key exS0 (exEnv "alice") "ent").1 "alice"
      (try_create_key exS0 (exEnv "alice") "ent").2 = true ∧
    is_key_valid (try_create_key exS0 (exEnv "alice") "ent").1 "alice" "wrong" = false ∧
    is_key_valid exS0 "bob" "anything" = false :=
  ⟨(C6_viewing_key exS0 (exEnv "alice") "ent").1,
   (C6_viewing_key exS0 (exEnv "alice") "ent").2.1 "wrong" (by decide),
   (C6_viewing_key exS0 (exEnv "alice") "ent").2.2 "bob" "anything" (by decide)⟩

/-! ### Claim C7 -/

/-- Claim C7: `try_set_status` from any sender other than the stored admin
fails with the admin-only error and changes nothing; from the admin it sets
the stopped flag and nothing else; and while the flag is set every
`try_create_offspring` fails with the stopped error and mutates nothing. -/
theorem C7_admin_gating (s : FactoryState) (env : Env) (stop : Bool) :
    (s.admin ≠ env.sender →
      try_set_status s env stop = .error .adminOnly ∧
      execStep s (env, .SetStatus stop) = s) ∧
    (s.admin = env.sender →
      try_set_status s env stop = .ok { s with is_stopped := stop }) ∧
    (s.is_stopped = true →
      ∀ label entropy owner count description,
        try_create_offspring s env label entropy owner count description
          = .error .factoryStopped ∧
        execStep s (env, .CreateOffspring label entropy owner count description) = s) := by
  refine ⟨?_, ?_, ?_⟩
  · intro h
    constructor
    · simp [try_set_status, h]
    · simp [execStep, handle, try_set_status, h]
  · intro h
    simp [try_set_status, h]
  · intro h label entropy owner count description
    constructor
    · simp [try_create_offspring, h]
    · simp [execStep, handle, try_create_offspring, h]

/-- Witness for C7: "mallory" cannot stop the factory; "admin" can, and a
create attempt on the stopped factory fails without mutation. -/
theorem C7_admin_gating_witness :
    (try_set_status exS0 (exEnv "mallory") true = .error .adminOnly ∧
      execStep exS0 (exEnv "mallory", .SetStatus true) = exS0) ∧
    try_set_status exS0 (exEnv "admin") true = .ok { exS0 with is_stopped := true } ∧
    (try_create_offspring { exS0 with is_stopped := true } (exEnv "alice")
        "L" "e" "alice" 0 none = .error .factoryStopped ∧
      execStep { exS0 with is_stopped := true }
        (exEnv "alice", .CreateOffspring "L" "e" "alice" 0 none)
        = { exS0 with is_stopped := true }) :=
  ⟨(C7_admin_gating exS0 (exEnv "mallory") true).1 (by decide),
   (C7_admin_gating exS0 (exEnv "admin") true).2.1 (by decide),
   (C7_admin_gating { exS0 with is_stopped := true } (exEnv "alice") true).2.2
     (by decide) "L" "e" "alice" 0 none⟩

/-! ### Claim C8 -/

/-- Claim C8: every business-mutating operation on an instance (Increment,
Reset, Deactivate) is rejected with the reported (non-fatal) Inactive error
and no state change when the local active flag is false; once inactive the
instance stays inactive under every sequence of execute calls (Inactive is
terminal); and Deactivate from a sender other than the stored owner is
rejected with Unauthorized. -/
theorem C8_instance_active_gating :
    (∀ (s : Offspring.OffspringState) sender msg, s.is_active = false →
      Offspring.execute s sender msg = .error .Inactive ∧
      Offspring.oexecStep s (sender, msg) = s) ∧
    (∀ (s : Offspring.OffspringState) tr, s.is_active = false →
      (Offspring.oexecTrace s tr).is_active = false) ∧
    (∀ (s : Offspring.OffspringState) sender, s.is_active = true →
      sender ≠ s.owner →
      Offspring.try_deactivate s sender = .error .Unauthorized) := by
  have h1 : ∀ (s : Offspring.OffspringState) sender msg, s.is_active = false →
      Offspring.execute s sender msg = .error .Inactive := by
    intro s sender msg h
    cases msg with
    | Increment =>
      simp [Offspring.execute, Offspring.try_increment, Offspring.enforce_active, h]
    | Reset count =>
      simp [Offspring.execute, Offspring.try_reset, Offspring.enforce_active, h]
    | Deactivate =>
      simp [Offspring.execute, Offspring.try_deactivate, Offspring.enforce_active, h]
  have hstep : ∀ (s : Offspring.OffspringState) c, s.is_active = false →
      Offspring.oexecStep s c = s := by
    intro s c h
    simp [Offspring.oexecStep, h1 s c.1 c.2 h]
  refine ⟨fun s sender msg h => ⟨h1 s sender msg h, hstep s (sender, msg) h⟩, ?_, ?_⟩
  · intro s tr h
    induction tr generalizing s with
    | nil => simpa [Offspring.oexecTrace] using h
    | cons c rest ih =>
      have hc : Offspring.oexecTrace s (c :: rest)
          = Offspring.oexecTrace (Offspring.oexecStep s c) rest := by
        simp [Offspring.oexecTrace]
      rw [hc, hstep s c h]
      exact ih s h
  · intro s sender ha hne
    simp [Offspring.try_deactivate, Offspring.enforce_active, ha, hne]

/-- Witness for C8: the deactivated sample offspring rejects Increment and
stays inactive through a whole trace; the active one rejects Deactivate
from a non-owner. -/
theorem C8_instance_active_gating_witness :
    Offspring.exOffD.is_active = false ∧
    Offspring.execute Offspring.exOffD "alice" .Increment = .error .Inactive ∧
    (Offspring.oexecTrace Offspring.exOffD
        [("alice", .Increment), ("alice", .Reset 5), ("alice", .Deactivate)]).is_active
      = false ∧
    Offspring.try_deactivate Offspring.exOff0 "bob" = .error .Unauthorized :=
  ⟨by decide,
   (C8_instance_active_gating.1 Offspring.exOffD "alice" .Increment (by decide)).1,
   C8_instance_active_gating.2.1 Offspring.exOffD
     [("alice", .Increment), ("alice", .Reset 5), ("alice", .Deactivate)] (by decide),
   C8_instance_active_gating.2.2 Offspring.exOff0 "bob" (by decide) (by decide)⟩

/-! ### Claim C9 -/

/-- Claim C9 (implicit): registration is authenticated by the password
alone — for every sender address, owner and label, whenever the presented
password equals the pending one, `try_register_offspring` succeeds and
records that sender with that label, inserting it under that owner's scoped
active index; nothing ties the sender, owner or label to the arguments of
the create call that minted the password. -/
theorem C9_password_alone (s : FactoryState) (env : Env) (owner : HumanAddr)
    (reg : RegisterOffspringInfo) (h : s.pending_password = some reg.password) :
    try_register_offspring s env owner reg
      = .ok (regSuccState s env owner reg, env.sender) ∧
    kmGet (regSuccState s env owner reg).offspring_storage env.sender
      = some { contract := { code_hash := s.offspring_code.code_hash, address := env.sender }
               label := reg.label } ∧
    memK (regSuccState s env owner reg).active_store env.sender = true ∧
    memK (scopeGet (regSuccState s env owner reg).owners_active owner) env.sender = true := by
  have heq := try_register_offspring_eq s env owner reg
  rw [h] at heq
  refine ⟨by simpa using heq, ?_, ?_, ?_⟩
  · show kmGet (kmInsert s.offspring_storage env.sender
        (reg.to_store_offspring_info (s.offspring_code.to_contract_info env.sender)))
        env.sender
      = some { contract := { code_hash := s.offspring_code.code_hash, address := env.sender }
               label := reg.label }
    rw [kmGet_kmInsert, if_pos rfl]
    rfl
  · show memK (kmInsert s.active_store env.sender true) env.sender = true
    rw [memK_kmInsert, if_pos rfl]
  · show memK (scopeGet (scopeInsert s.owners_active owner env.sender true) owner)
        env.sender = true
    rw [scopeGet_scopeInsert, if_pos rfl, memK_kmInsert, if_pos rfl]

/-- Witness for C9: the password was minted for a create call with owner
"alice" and label "X", yet sender "mallory" registers with owner "eve" and
label "evil" and is recorded and indexed under "eve". -/
theorem C9_password_alone_witness :
    try_register_offspring c1S1 (exEnv "mallory") "eve"
        { label := "evil", password := c1S1.pending_password.getD [] }
      = .ok (regSuccState c1S1 (exEnv "mallory") "eve"
          { label := "evil", password := c1S1.pending_password.getD [] }, "mallory") ∧
    memK (scopeGet (regSuccState c1S1 (exEnv "mallory") "eve"
        { label := "evil", password := c1S1.pending_password.getD [] }).owners_active "eve")
      "mallory" = true :=
  ⟨(C9_password_alone c1S1 (exEnv "mallory") "eve"
      { label := "evil", password := c1S1.pending_password.getD [] } (by decide)).1,
   (C9_password_alone c1S1 (exEnv "mallory") "eve"
      { label := "evil", password := c1S1.pending_password.getD [] } (by decide)).2.2.2⟩

/-! ### Claim C10 -/

theorem resolveKeys_no_badFilter (s : FactoryState) (keys : List HumanAddr) :
    isBadFilter (resolveKeys s keys) = false := by
  induction keys with
  | nil => rfl
  | cons k rest ih =>
    simp only [resolveKeys]
    cases hk : kmGet s.offspring_storage k with
    | none => simp [isBadFilter]
    | some info =>
      cases hr : resolveKeys s rest with
      | error e =>
        rw [hr] at ih
        simpa [isBadFilter] using ih
      | ok l => simp [isBadFilter]

theorem display_no_badFilter (s : FactoryState) (owner : Option HumanAddr)
    (filter : FilterTypes) (st sz : Option Nat) (hf : filter ≠ FilterTypes.All) :
    isBadFilter (display_active_or_inactive_list s owner filter st sz) = false := by
  cases filter with
  | All => exact absurd rfl hf
  | Active =>
    cases owner <;>
      simp [display_active_or_inactive_list, resolveKeys_no_badFilter]
  | Inactive =>
    cases owner <;>
      simp [display_active_or_inactive_list, resolveKeys_no_badFilter]

theorem try_list_my_no_badFilter (s : FactoryState) (address : HumanAddr)
    (viewing_key : String) (filter : Option FilterTypes) (st sz : Option Nat) :
    isBadFilter (try_list_my s address viewing_key filter st sz) = false := by
  have hA := display_no_badFilter s (some address) .Active st sz (by simp)
  have hI := display_no_badFilter s (some address) .Inactive st sz (by simp)
  unfold try_list_my
  cases hk : is_key_valid s address viewing_key with
  | false => simp [isBadFilter]
  | true =>
    simp only [Bool.not_true, Bool.false_eq_true, if_false]
    cases ht : filter.getD FilterTypes.All with
    | Active =>
      simp only [ht]
      cases hda : display_active_or_inactive_list s (some address) .Active st sz with
      | error e =>
        have hne : e ≠ FactoryErr.badFilter := by
          intro hcontra
          rw [hda, hcontra] at hA
          simp [isBadFilter] at hA
        cases e <;> simp_all [isBadFilter]
      | ok l => simp [isBadFilter]
    | Inactive =>
      simp only [ht]
      cases hdi : display_active_or_inactive_list s (some address) .Inactive st sz with
      | error e =>
        have hne : e ≠ FactoryErr.badFilter := by
          intro hcontra
          rw [hdi, hcontra] at hI
          simp [isBadFilter] at hI
        cases e <;> simp_all [isBadFilter]
      | ok l => simp [isBadFilter]
    | All =>
      simp only [ht]
      cases hda : display_active_or_inactive_list s (some address) .Active st sz with
      | error e =>
        have hne : e ≠ FactoryErr.badFilter := by
          intro hcontra
          rw [hda, hcontra] at hA
          simp [isBadFilter] at hA
        cases e <;> simp_all [isBadFilter]
      | ok l =>
        cases hdi : display_active_or_inactive_list s (some address) .Inactive st sz with
        | error e =>
          have hne : e ≠ FactoryErr.badFilter := by
            intro hcontra
            rw [hdi, hcontra] at hI
            simp [isBadFilter] at hI
          cases e <;> simp_all [isBadFilter]
        | ok l' => simp [isBadFilter]

/-- Claim C10 (implicit): the malformed-filter error branch is unreachable
from the public query interface — `display_active_or_inactive_list` with
the `All` filter is exactly the bad-filter error, yet no `query` message can
produce that error, because the list queries pass a fixed single filter and
`try_list_my` translates `All` (or an absent filter) into two single-filter
calls. -/
theorem C10_badFilter_unreachable :
    (∀ s owner st sz,
      display_active_or_inactive_list s owner FilterTypes.All st sz
        = .error .badFilter) ∧
    (∀ s msg, isBadFilter (query s msg) = false) := by
  constructor
  · intro s owner st sz
    rfl
  · intro s msg
    cases msg with
    | ListMyOffspring address viewing_key filter st sz =>
      exact try_list_my_no_badFilter s address viewing_key filter st sz
    | ListActiveOffspring st sz =>
      have h := display_no_badFilter s none .Active st sz (by simp)
      unfold query try_list_active
      cases hd : display_active_or_inactive_list s none .Active st sz with
      | error e =>
        have hne : e ≠ FactoryErr.badFilter := by
          intro hcontra
          rw [hd, hcontra] at h
          simp [isBadFilter] at h
        cases e <;> simp_all [isBadFilter]
      | ok l => simp [hd, isBadFilter]
    | ListInactiveOffspring st sz =>
      have h := display_no_badFilter s none .Inactive st sz (by simp)
      unfold query try_list_inactive
      cases hd : display_active_or_inactive_list s none .Inactive st sz with
      | error e =>
        have hne : e ≠ FactoryErr.badFilter := by
          intro hcontra
          rw [hd, hcontra] at h
          simp [isBadFilter] at h
        cases e <;> simp_all [isBadFilter]
      | ok l => simp [hd, isBadFilter]
    | IsKeyValid address viewing_key => rfl

end Factory
